import Mathlib

/-!
Verification of the transaction-network-connector gateway.

This development shallowly embeds the parts of the TypeScript sources that the
verified properties concern:

* `src/service/routing-service.ts` — the local routing engine (push routes,
  request routes with routing policies, pending request correlation),
* `src/controller/tn-base-controller.ts` and
  `src/controller/tn-communication-controller.ts` — the payload codec between
  gRPC Any payloads and Coaty bus objects,
* `src/service/tn-communication-service.ts` — the response-sink table of the
  Call-Return bridge,
* `src/controller/tn-consensus-controller.ts` and
  `src/service/tn-consensus-service.ts` — the consensus gateway propose path
  and its key-value Raft state machine.

JavaScript `Map` objects are embedded as association lists with unique keys:
`Map.get` is `alookup`, `Map.set` is `aset` (updates an existing key in place,
otherwise appends, matching JS `Map` insertion-order semantics), and
`Map.delete` is `adelete`. JS object identity of gRPC call objects is embedded
as a numeric `callId`: distinct live call objects always have distinct ids.
-/

namespace TNC


def alookup {α β : Type} [DecidableEq α] (k : α) : List (α × β) → Option β
  | [] => none
  | (k', v) :: rest => if k' = k then some v else alookup k rest


def aset {α β : Type} [DecidableEq α] (k : α) (v : β) : List (α × β) → List (α × β)
  | [] => [(k, v)]
  | (k', v') :: rest => if k' = k then (k, v) :: rest else (k', v') :: aset k v rest


def adelete {α β : Type} [DecidableEq α] (k : α) (l : List (α × β)) : List (α × β) :=
  l.filter (fun p => decide (p.1 ≠ k))



/-!
## Payload codec

`tn-base-controller.ts` converts between byte arrays and base64 strings with
Node's `Buffer` (`base64ToByteArray` / `byteArrayToBase64`);
`tn-communication-controller.ts` uses them in `publishChannel` (wire → bus)
and in the `observeChannel` mapping (bus → wire). Bytes are embedded as `Nat`
values below `256`; the base64 codec is the standard RFC 4648 alphabet with
`=` padding, which is what `Buffer.toString("base64")` and
`Buffer.from(value, "base64")` implement.
-/


def base64Chars : List Char :=
  ['A', 'B', 'C', 'D', 'E', 'F', 'G', 'H', 'I', 'J', 'K', 'L', 'M',
   'N', 'O', 'P', 'Q', 'R', 'S', 'T', 'U', 'V', 'W', 'X', 'Y', 'Z',
   'a', 'b', 'c', 'd', 'e', 'f', 'g', 'h', 'i', 'j', 'k', 'l', 'm',
   'n', 'o', 'p', 'q', 'r', 's', 't', 'u', 'v', 'w', 'x', 'y', 'z',
   '0', '1', '2', '3', '4', '5', '6', '7', '8', '9', '+', '/']


def encChar (n : Nat) : Char := base64Chars.getD n 'A'


def decChar (c : Char) : Nat := base64Chars.findIdx (fun c' => c' = c)


def byteArrayToBase64 : List Nat → List Char
  | [] => []
  | [a] => [encChar (a / 4), encChar (a % 4 * 16), '=', '=']
  | [a, b] => [encChar (a / 4), encChar (a % 4 * 16 + b / 16), encChar (b % 16 * 4), '=']
  | a :: b :: c :: rest =>
      encChar (a / 4) :: encChar (a % 4 * 16 + b / 16) ::
      encChar (b % 16 * 4 + c / 64) :: encChar (c % 64) :: byteArrayToBase64 rest


def base64ToByteArray : List Char → List Nat
  | c1 :: c2 :: c3 :: c4 :: rest =>
      if c3 = '=' then
        [decChar c1 * 4 + decChar c2 / 16]
      else if c4 = '=' then
        [decChar c1 * 4 + decChar c2 / 16, decChar c2 % 16 * 16 + decChar c3 / 4]
      else
        (decChar c1 * 4 + decChar c2 / 16) :: (decChar c2 % 16 * 16 + decChar c3 / 4) ::
        (decChar c3 % 4 * 64 + decChar c4) :: base64ToByteArray rest
  | _ => []



structure AnyType where
  type_url : String
  value : List Nat
deriving Repr, DecidableEq


structure CoatyObjectModel where
  name : String
  objectId : String
  coreType : String
  objectType : String
  value : List Char
  sourceId : Option String
deriving Repr, DecidableEq


structure BusChannelEvent where
  channelId : String
  object : CoatyObjectModel
deriving Repr, DecidableEq


structure PbChannelEvent where
  id : String
  data : AnyType
  sourceId : Option String
deriving Repr, DecidableEq


def publishChannel (uuid : String) (event : PbChannelEvent) : BusChannelEvent :=
  { channelId := event.id,
    object :=
      { name := "Auto-created from Protobuf Any",
        objectId := uuid,
        coreType := "CoatyObject",
        objectType := event.data.type_url,
        value := byteArrayToBase64 event.data.value,
        sourceId := event.sourceId } }


def observeChannelEvent (evt : BusChannelEvent) : PbChannelEvent :=
  { id := evt.channelId,
    data :=
      { type_url := evt.object.objectType,
        value := base64ToByteArray evt.object.value },
    sourceId := evt.object.sourceId }

/-!
## Routing service

Embedding of `RoutingService` from `routing-service.ts`. A two-way
registration call is embedded as its `callId` (object identity) together with
its `call.request` fields (`route`, `routingPolicy`); a one-way registration
call as `callId` plus `route`. The selector closures produced by
`_routingPolicySelector` carry one mutable variable `currentCallIndex` per
group; it is embedded as the `cursor` field of the group record.
`Math.floor(Math.random() * calls.length)`, an arbitrary index in
`[0, len)`, is embedded as `rand % calls.length` for an arbitrary
oracle `rand`. Requester cancellation (`call.cancelled`) is external input
and is passed to each operation as the list of cancelled requester ids. -/


inductive RoutingPolicy
  | Single
  | First
  | Last
  | Next
  | Random
deriving Repr, DecidableEq


structure RegCallTwoWay where
  callId : Nat
  route : String
  routingPolicy : RoutingPolicy
deriving Repr, DecidableEq


structure RegCallOneWay where
  callId : Nat
  route : String
deriving Repr, DecidableEq


structure TwoWayItems where
  calls : List RegCallTwoWay
  requestId : Nat
  policy : RoutingPolicy
  cursor : Nat
deriving Repr, DecidableEq


structure RequestItem where
  requesterId : Nat
  registration : Option RegCallTwoWay
deriving Repr, DecidableEq


structure RoutingState where
  registrationCallsOneWay : List (String × List RegCallOneWay)
  registrationCallsTwoWay : List (String × TwoWayItems)
  requestCalls : List (String × List (Nat × RequestItem))
deriving Repr, DecidableEq

def RoutingState.initial : RoutingState :=
  { registrationCallsOneWay := [], registrationCallsTwoWay := [], requestCalls := [] }


inductive StatusCode
  | ok
  | invalidArgument
  | unavailable
  | cancelled
  | outOfRange
  | internal
deriving Repr, DecidableEq


structure StatusError where
  code : StatusCode
  details : String
deriving Repr, DecidableEq


def nextRequestId (requestId : Nat) : Nat :=
  if requestId < 0xFFFFFFFF then requestId + 1 else 1


def selectCall (items : TwoWayItems) (rand : Nat) : Option RegCallTwoWay × Nat :=
  match items.policy with
  | .Single | .First => (items.calls.get? 0, items.cursor)
  | .Last => (items.calls.get? (items.calls.length - 1), items.cursor)
  | .Random => (items.calls.get? (rand % items.calls.length), items.cursor)
  | .Next =>
      (items.calls.get? items.cursor,
       if items.cursor < items.calls.length - 1 then items.cursor + 1 else 0)


def registerCallTwoWay (s : RoutingState) (call : RegCallTwoWay) :
    RoutingState × Option StatusError :=
  let items := (alookup call.route s.registrationCallsTwoWay).getD
    { calls := [], requestId := 0, policy := call.routingPolicy, cursor := 0 }
  let sKept := { s with registrationCallsTwoWay := aset call.route items s.registrationCallsTwoWay }
  let appended := aset call.route { items with calls := items.calls ++ [call] } s.registrationCallsTwoWay
  if items.policy = .Single ∧ items.calls.length > 0 then
    (sKept,
     some { code := .invalidArgument,
            details := "Registration error on two-way route " ++ call.route ++
              ": additional registrations not allowed with default policy" })
  else if items.policy ≠ .Single ∧ items.policy ≠ call.routingPolicy then
    (sKept,
     some { code := .invalidArgument,
            details := "Registration error on two-way route " ++ call.route ++
              ": additional registration with different policy not accepted" })
  else
    ({ s with registrationCallsTwoWay := appended }, none)


def registerCallOneWay (s : RoutingState) (call : RegCallOneWay) : RoutingState :=
  let calls := (alookup call.route s.registrationCallsOneWay).getD []
  let m := aset call.route (calls ++ [call]) s.registrationCallsOneWay
  { s with registrationCallsOneWay := m }


def handlePush (s : RoutingState) (route : String) : RoutingState × Nat :=
  (s, match alookup route s.registrationCallsOneWay with
      | some items => items.length
      | none => 0)


inductive RequestOutcome
  | unavailableReply (e : StatusError)
  | dispatched (requestId : Nat) (target : Option RegCallTwoWay)
deriving Repr, DecidableEq


def addRequestCall (s : RoutingState) (route : String) (requestId : Nat)
    (item : RequestItem) : RoutingState :=
  let requestItems := (alookup route s.requestCalls).getD []
  { s with requestCalls := aset route (aset requestId item requestItems) s.requestCalls }


def handleRequest (s : RoutingState) (requesterId : Nat) (route : String) (rand : Nat) :
    RoutingState × RequestOutcome :=
  match alookup route s.registrationCallsTwoWay with
  | none =>
      (s, .unavailableReply
        { code := .unavailable, details := "No registration available for request event" })
  | some items =>
      let sel := selectCall items rand
      let rid := nextRequestId items.requestId
      let items' := { items with requestId := rid, cursor := sel.2 }
      let m := aset route items' s.registrationCallsTwoWay
      let s1 := { s with registrationCallsTwoWay := m }
      (addRequestCall s1 route rid { requesterId := requesterId, registration := sel.1 },
       .dispatched rid sel.1)


structure ResponseEvent where
  route : String
  requestId : Option Nat
  data : Option String
  error : Option String
deriving Repr, DecidableEq


def removeRequestCall (s : RoutingState) (route : String) (requestId : Option Nat) :
    RoutingState × Option RequestItem :=
  match alookup route s.requestCalls with
  | none => (s, none)
  | some items =>
      let item := requestId.bind (fun rid => alookup rid items)
      let items' := match requestId with
        | none => items
        | some rid => adelete rid items
      (if items'.isEmpty then
        { s with requestCalls := adelete route s.requestCalls }
       else
        { s with requestCalls := aset route items' s.requestCalls },
       item)


inductive RespondOutcome
  | invalidArgumentReply (e : StatusError)
  | ackReply (routingCount : Nat) (delivered : Option (Nat × ResponseEvent))
deriving Repr, DecidableEq


def handleResponse (s : RoutingState) (cancelledReq : List Nat) (resp : ResponseEvent) :
    RoutingState × RespondOutcome :=
  let r := removeRequestCall s resp.route resp.requestId
  match r.2 with
  | none =>
      (r.1, .invalidArgumentReply
        { code := .invalidArgument,
          details := "Response event discarded as no correlated registration exits" })
  | some item =>
      if item.requesterId ∈ cancelledReq then
        (r.1, .ackReply 0 none)
      else
        (r.1, .ackReply 1 (some (item.requesterId, { resp with requestId := none })))


def sameRegistration (reg : Option RegCallTwoWay) (callId : Nat) : Bool :=
  match reg with
  | none => false
  | some r => r.callId == callId


def cancelRequestCalls (s : RoutingState) (cancelledReq : List Nat) (call : RegCallTwoWay) :
    RoutingState × List (Nat × StatusError) :=
  match alookup call.route s.requestCalls with
  | none => (s, [])
  | some items =>
      let items' := items.filter (fun p => !sameRegistration p.2.registration call.callId)
      let outs := items.filterMap (fun p =>
        if sameRegistration p.2.registration call.callId ∧ p.2.requesterId ∉ cancelledReq then
          some (p.2.requesterId,
            ({ code := .cancelled,
               details := "Correlated registration deregistered before response" } : StatusError))
        else none)
      (if items'.isEmpty then
        { s with requestCalls := adelete call.route s.requestCalls }
       else
        { s with requestCalls := aset call.route items' s.requestCalls },
       outs)


def eraseFirstTwoWay (callId : Nat) : List RegCallTwoWay → List RegCallTwoWay
  | [] => []
  | c :: rest => if c.callId = callId then rest else c :: eraseFirstTwoWay callId rest

def eraseFirstOneWay (callId : Nat) : List RegCallOneWay → List RegCallOneWay
  | [] => []
  | c :: rest => if c.callId = callId then rest else c :: eraseFirstOneWay callId rest


def deregisterCallTwoWay (s : RoutingState) (cancelledReq : List Nat) (call : RegCallTwoWay) :
    RoutingState × List (Nat × StatusError) :=
  match alookup call.route s.registrationCallsTwoWay with
  | none => (s, [])
  | some items =>
      if items.calls.any (fun c => c.callId == call.callId) then
        let calls' := eraseFirstTwoWay call.callId items.calls
        let m := aset call.route { items with calls := calls' } s.registrationCallsTwoWay
        let s1 :=
          if calls'.isEmpty then
            { s with registrationCallsTwoWay := adelete call.route s.registrationCallsTwoWay }
          else
            { s with registrationCallsTwoWay := m }
        cancelRequestCalls s1 cancelledReq call
      else
        (s, [])


def deregisterCallOneWay (s : RoutingState) (call : RegCallOneWay) : RoutingState :=
  let items := (alookup call.route s.registrationCallsOneWay).getD []
  if items.any (fun c => c.callId == call.callId) then
    let items' := eraseFirstOneWay call.callId items
    if items'.isEmpty then
      { s with registrationCallsOneWay := adelete call.route s.registrationCallsOneWay }
    else
      { s with registrationCallsOneWay := aset call.route items' s.registrationCallsOneWay }
  else
    s


inductive RoutingCmd
  | registerPush (call : RegCallOneWay)
  | registerRequest (call : RegCallTwoWay)
  | pushEvent (route : String)
  | requestEvent (requesterId : Nat) (route : String) (rand : Nat)
  | respondEvent (cancelledReq : List Nat) (resp : ResponseEvent)
  | deregisterPush (call : RegCallOneWay)
  | deregisterRequest (cancelledReq : List Nat) (call : RegCallTwoWay)
deriving Repr


def routingStep (s : RoutingState) : RoutingCmd → RoutingState
  | .registerPush call => registerCallOneWay s call
  | .registerRequest call => (registerCallTwoWay s call).1
  | .pushEvent route => (handlePush s route).1
  | .requestEvent requesterId route rand => (handleRequest s requesterId route rand).1
  | .respondEvent cancelledReq resp => (handleResponse s cancelledReq resp).1
  | .deregisterPush call => deregisterCallOneWay s call
  | .deregisterRequest cancelledReq call => (deregisterCallTwoWay s cancelledReq call).1


def routingRun (cmds : List RoutingCmd) : RoutingState :=
  cmds.foldl routingStep RoutingState.initial

/-!
## Communication service: response sinks

`TnCommunicationService` keeps `_observedResponseCallbacks`, a map from
correlation id to the response callback captured by `_observeCall`. A
callback closure is embedded as an opaque `Nat` identity. `_publishComplete`
deletes the entry for the given correlation id and acks with an (empty)
`EventAck` in every case.
-/


def SinkTable : Type := List (String × Nat)


inductive CompleteReply
  | eventAck
deriving Repr, DecidableEq


def publishComplete (sinks : SinkTable) (correlationId : String) :
    SinkTable × CompleteReply :=
  (adelete correlationId sinks, .eventAck)

/-!
## Consensus gateway: propose

`TnConsensusController.propose` checks the node registry, substitutes the
null value for an unset (`=== null` after gRPC decoding) input value, rejects
a value with no enumerable own keys with `RaftError.Internal`, and otherwise
commits the input through the Raft library, whose effect on the key-value
state is `KVRaftStateMachine.processInput` (in the same source file). The
Raft consensus round itself is an external library and is embedded as an
immediate commit. `TnConsensusService._propose` maps controller results onto
gRPC replies. JSON values are embedded as `JsonValue`; a JS `null` inside
the store is `Option.none`.
-/


inductive JsonValue
  | num (n : Int)
  | str (s : String)
  | boolVal (b : Bool)
  | arr (elems : List JsonValue)
  | obj (fields : List (String × JsonValue))


def hasNoEnumerableKeys : Option JsonValue → Bool
  | some (.obj fields) => fields.isEmpty
  | some (.arr elems) => elems.isEmpty
  | _ => true


inductive RaftInputOperation
  | Unspecified
  | Put
  | Delete
deriving Repr, DecidableEq


structure RaftInput where
  ref : String
  op : RaftInputOperation
  key : String
  value : Option JsonValue


def KVState : Type := List (String × Option JsonValue)


def processInput (st : KVState) (input : RaftInput) : KVState :=
  match input.op with
  | .Put => aset input.key input.value st
  | .Delete => adelete input.key st
  | .Unspecified => st


inductive RaftError
  | noErr
  | internalErr
  | disconnectBeforeOperationComplete
  | operationNotSupportedInCurrentConnectionState
  | tooManyQueuedUpInputProposals
  | undefinedRaftNodeId
deriving Repr, DecidableEq


inductive ProposeResult
  | committed (keyValuePairs : KVState)
  | raftErr (e : RaftError)


def propose (nodes : List (String × KVState)) (input : RaftInput) :
    List (String × KVState) × ProposeResult :=
  match alookup input.ref nodes with
  | none => (nodes, .raftErr .undefinedRaftNodeId)
  | some st =>
      let v : Option JsonValue :=
        match input.value with
        | none => some (.obj [("nullValue", .num 0)])
        | some x => some x
      if hasNoEnumerableKeys v then
        (nodes, .raftErr .internalErr)
      else
        let st' := processInput st { input with value := v }
        (aset input.ref st' nodes, .committed st')


inductive UnaryReply (ρ : Type)
  | err (e : StatusError)
  | ok (r : ρ)

/-!
## Routing invariants

The cross-operation invariant of the routing tables, preserved by every
operation from the empty initial state.
-/


def RoutingInv (s : RoutingState) : Prop :=
  (∀ route l, alookup route s.registrationCallsOneWay = some l → l ≠ []) ∧
  (∀ route items, alookup route s.registrationCallsTwoWay = some items →
    items.calls ≠ [] ∧
    (∀ c ∈ items.calls, c.routingPolicy = items.policy) ∧
    (items.policy = .Single → items.calls.length ≤ 1) ∧
    items.requestId ≤ 0xFFFFFFFF)



def proposeRpc (offline : Bool) (nodes : List (String × KVState)) (input : RaftInput) :
    List (String × KVState) × UnaryReply KVState :=
  if offline then
    (nodes, .err { code := .unavailable, details := "Coaty agent is offline" })
  else
    match propose nodes input with
    | (nodes', .committed st) => (nodes', .ok st)
    | (nodes', .raftErr .undefinedRaftNodeId) =>
        (nodes',
         .err { code := .invalidArgument, details := "Raft node with this id has not been created" })
    | (nodes', .raftErr .tooManyQueuedUpInputProposals) =>
        (nodes',
         .err { code := .outOfRange, details := "Too many queued up input proposals for this Raft node" })
    | (nodes', .raftErr .operationNotSupportedInCurrentConnectionState) =>
        (nodes',
         .err { code := .unavailable, details := "Raft node is currently not connected" })
    | (nodes', .raftErr .disconnectBeforeOperationComplete) =>
        (nodes',
         .err { code := .unavailable, details := "Raft node stopped or disconnected before proposal committed" })
    | (nodes', .raftErr _) =>
        (nodes',
         .err { code := .internal, details := "Serialization format of input value may be invalid" })

/-!
## Pending-request table lemmas

`lookupPending` is the read path `_requestCalls.get(route)?.get(requestId)`
the respond handler uses; the lemmas connect the operations to it. JS maps
never hold duplicate keys, which the embedding expresses as `Nodup` of the
key projection of each inner table; this holds in every reachable state.
-/


def lookupPending (s : RoutingState) (route : String) (rid : Nat) : Option RequestItem :=
  (alookup route s.requestCalls).bind (fun items => alookup rid items)


def PendingNodup (s : RoutingState) : Prop :=
  ∀ route pitems, alookup route s.requestCalls = some pitems →
    (pitems.map Prod.fst).Nodup

/-- The error `_handleResponse` replies for an uncorrelated response event
(the details string is verbatim from `routing-service.ts`, including its
spelling, which the service's own test suite asserts). -/
def noCorrelationErr : StatusError :=
  { code := .invalidArgument,
    details := "Response event discarded as no correlated registration exits" }

/-- The error `_cancelRequestCalls` fails live requester calls with. -/
def deregisteredErr : StatusError :=
  { code := .cancelled,
    details := "Correlated registration deregistered before response" }

/-- The `google.protobuf.Value` null value substituted by `propose` for an
unset input value. -/
def nullValueObj : JsonValue := .obj [("nullValue", .num 0)]

/-- Operation sequence exercising the NEXT routing policy across a
deregistration: two registrations, one request (cursor advances to 1), then
the second registration leaves (list length becomes 1, cursor stays 1). -/
def nextPolicyCmds : List RoutingCmd :=
  [.registerRequest { callId := 1, route := "r", routingPolicy := .Next },
   .registerRequest { callId := 2, route := "r", routingPolicy := .Next },
   .requestEvent 10 "r" 0,
   .deregisterRequest [] { callId := 2, route := "r", routingPolicy := .Next }]

/-- Concrete FIRST-policy group used to witness the policy-coherence
invariant. -/
def firstGroupW : TwoWayItems :=
  { calls := [{ callId := 1, route := "r", routingPolicy := .First }],
    requestId := 0, policy := .First, cursor := 0 }

/-- The rejection error of an additional registration on a SINGLE group of
route `r`. -/
def singleRejectErrW : StatusError :=
  { code := .invalidArgument,
    details := "Registration error on two-way route r: additional registrations not allowed with default policy" }

/-!
## Theorems
-/

theorem alookup_aset_self {α β : Type} [DecidableEq α] (k : α) (v : β) (l : List (α × β)) :
    alookup k (aset k v l) = some v := by
  induction l with
  | nil => simp [alookup, aset]
  | cons hd tl ih =>
    obtain ⟨k', v'⟩ := hd
    by_cases h : k' = k
    · simp [alookup, aset, h]
    · simp [alookup, aset, h, ih]

theorem alookup_aset_ne {α β : Type} [DecidableEq α] {k k' : α} (v : β) (l : List (α × β))
    (h : k' ≠ k) : alookup k' (aset k v l) = alookup k' l := by
  induction l with
  | nil => simp [alookup, aset, Ne.symm h]
  | cons hd tl ih =>
    obtain ⟨k'', v''⟩ := hd
    by_cases hk : k'' = k
    · subst hk
      simp [aset, alookup, Ne.symm h]
    · simp [aset, hk, alookup, ih]

theorem alookup_adelete_self {α β : Type} [DecidableEq α] (k : α) (l : List (α × β)) :
    alookup k (adelete k l) = none := by
  induction l with
  | nil => simp [alookup, adelete]
  | cons hd tl ih =>
    obtain ⟨k', v'⟩ := hd
    by_cases h : k' = k
    · simpa [adelete, h] using ih
    · simpa [adelete, alookup, h] using ih

theorem alookup_adelete_ne {α β : Type} [DecidableEq α] {k k' : α} (l : List (α × β))
    (h : k' ≠ k) : alookup k' (adelete k l) = alookup k' l := by
  induction l with
  | nil => simp [alookup, adelete]
  | cons hd tl ih =>
    obtain ⟨k'', v''⟩ := hd
    simp only [adelete, decide_not] at ih ⊢
    by_cases hk : k'' = k
    · subst hk
      simp [List.filter_cons, alookup, Ne.symm h, ih]
    · simp [List.filter_cons, hk, alookup, ih]

theorem aset_lookup_eq {α β : Type} [DecidableEq α] {k : α} {v : β} {l : List (α × β)}
    (h : alookup k l = some v) : aset k v l = l := by
  induction l with
  | nil => simp [alookup] at h
  | cons hd tl ih =>
    obtain ⟨k', v'⟩ := hd
    by_cases hk : k' = k
    · subst hk
      simp [alookup] at h
      simp [aset, h]
    · simp [alookup, hk] at h
      simp [aset, hk, ih h]

theorem alookup_aset_cases {α β : Type} [DecidableEq α] {k k' : α} {v x : β}
    {l : List (α × β)} (h : alookup k' (aset k v l) = some x) :
    x = v ∨ alookup k' l = some x := by
  by_cases hk : k' = k
  · subst hk
    rw [alookup_aset_self] at h
    exact Or.inl (Option.some.inj h).symm
  · rw [alookup_aset_ne v l hk] at h
    exact Or.inr h

theorem alookup_adelete_cases {α β : Type} [DecidableEq α] {k k' : α} {x : β}
    {l : List (α × β)} (h : alookup k' (adelete k l) = some x) :
    alookup k' l = some x := by
  by_cases hk : k' = k
  · subst hk
    rw [alookup_adelete_self] at h
    cases h
  · rwa [alookup_adelete_ne l hk] at h

theorem decChar_encChar {n : Nat} (h : n < 64) : decChar (encChar n) = n := by
  interval_cases n <;> rfl

theorem encChar_ne_eq {n : Nat} : encChar n ≠ '=' := by
  by_cases h : n < 64
  · interval_cases n <;> decide
  · unfold encChar
    rw [List.getD_eq_default]
    · decide
    · simpa [base64Chars] using Nat.le_of_not_lt h

theorem base64_roundtrip (bytes : List Nat) (h : ∀ b ∈ bytes, b < 256) :
    base64ToByteArray (byteArrayToBase64 bytes) = bytes := by
  induction bytes using byteArrayToBase64.induct with
  | case1 => simp [byteArrayToBase64, base64ToByteArray]
  | case2 a =>
    have ha : a < 256 := h a (by simp)
    have h1 : a / 4 < 64 := by omega
    have h2 : a % 4 * 16 < 64 := by omega
    simp only [byteArrayToBase64, base64ToByteArray, eq_self_iff_true, if_true,
      decChar_encChar h1, decChar_encChar h2, List.cons.injEq, and_true]
    omega
  | case3 a b =>
    have ha : a < 256 := h a (by simp)
    have hb : b < 256 := h b (by simp)
    have h1 : a / 4 < 64 := by omega
    have h2 : a % 4 * 16 + b / 16 < 64 := by omega
    have h3 : b % 16 * 4 < 64 := by omega
    simp only [byteArrayToBase64, base64ToByteArray, encChar_ne_eq, eq_self_iff_true,
      if_true, if_false, decChar_encChar h1, decChar_encChar h2, decChar_encChar h3,
      List.cons.injEq, and_true]
    omega
  | case4 a b c rest ih =>
    have ha : a < 256 := h a (by simp)
    have hb : b < 256 := h b (by simp)
    have hc : c < 256 := h c (by simp)
    have hrest : ∀ x ∈ rest, x < 256 := fun x hx => h x (by simp [hx])
    have h1 : a / 4 < 64 := by omega
    have h2 : a % 4 * 16 + b / 16 < 64 := by omega
    have h3 : b % 16 * 4 + c / 64 < 64 := by omega
    have h4 : c % 64 < 64 := by omega
    simp only [byteArrayToBase64, base64ToByteArray, encChar_ne_eq, if_false,
      decChar_encChar h1, decChar_encChar h2, decChar_encChar h3, decChar_encChar h4,
      ih hrest, List.cons.injEq, and_true]
    omega

theorem nextRequestId_le (r : Nat) : nextRequestId r ≤ 0xFFFFFFFF := by
  unfold nextRequestId
  split <;> omega

theorem nextRequestId_pos (r : Nat) : 1 ≤ nextRequestId r := by
  unfold nextRequestId
  split <;> omega

theorem mem_eraseFirstTwoWay {cid : Nat} {l : List RegCallTwoWay} {a : RegCallTwoWay}
    (h : a ∈ eraseFirstTwoWay cid l) : a ∈ l := by
  induction l with
  | nil => simpa [eraseFirstTwoWay] using h
  | cons hd tl ih =>
    by_cases hc : hd.callId = cid
    · simp only [eraseFirstTwoWay, if_pos hc] at h
      exact List.mem_cons_of_mem _ h
    · simp only [eraseFirstTwoWay, if_neg hc, List.mem_cons] at h
      rcases h with h | h
      · simp [h]
      · exact List.mem_cons_of_mem _ (ih h)

theorem length_eraseFirstTwoWay_le (cid : Nat) (l : List RegCallTwoWay) :
    (eraseFirstTwoWay cid l).length ≤ l.length := by
  induction l with
  | nil => simp [eraseFirstTwoWay]
  | cons hd tl ih =>
    by_cases hc : hd.callId = cid
    · simp only [eraseFirstTwoWay, if_pos hc, List.length_cons]
      omega
    · simp only [eraseFirstTwoWay, if_neg hc, List.length_cons]
      omega

theorem routingInv_of_eq {s t : RoutingState} (h : RoutingInv s)
    (e1 : t.registrationCallsOneWay = s.registrationCallsOneWay)
    (e2 : t.registrationCallsTwoWay = s.registrationCallsTwoWay) : RoutingInv t := by
  obtain ⟨ha, hb⟩ := h
  exact ⟨fun r l hl => ha r l (e1 ▸ hl), fun r i hi => hb r i (e2 ▸ hi)⟩

theorem addRequestCall_regs (s : RoutingState) (route : String) (rid : Nat)
    (item : RequestItem) :
    (addRequestCall s route rid item).registrationCallsOneWay = s.registrationCallsOneWay ∧
    (addRequestCall s route rid item).registrationCallsTwoWay = s.registrationCallsTwoWay :=
  ⟨rfl, rfl⟩

theorem removeRequestCall_regs (s : RoutingState) (route : String) (rid : Option Nat) :
    ((removeRequestCall s route rid).1).registrationCallsOneWay = s.registrationCallsOneWay ∧
    ((removeRequestCall s route rid).1).registrationCallsTwoWay = s.registrationCallsTwoWay := by
  constructor <;> (simp only [removeRequestCall]; split <;> (try rfl) <;> split <;> rfl)

theorem handleResponse_fst (s : RoutingState) (cancelledReq : List Nat) (resp : ResponseEvent) :
    (handleResponse s cancelledReq resp).1 = (removeRequestCall s resp.route resp.requestId).1 := by
  simp only [handleResponse]
  split <;> (try rfl) <;> split <;> rfl

theorem cancelRequestCalls_regs (s : RoutingState) (cancelledReq : List Nat)
    (call : RegCallTwoWay) :
    ((cancelRequestCalls s cancelledReq call).1).registrationCallsOneWay =
      s.registrationCallsOneWay ∧
    ((cancelRequestCalls s cancelledReq call).1).registrationCallsTwoWay =
      s.registrationCallsTwoWay := by
  constructor <;> (simp only [cancelRequestCalls]; split <;> (try rfl) <;> split <;> rfl)

theorem routingInv_step {s : RoutingState} (c : RoutingCmd) (h : RoutingInv s) :
    RoutingInv (routingStep s c) := by
  obtain ⟨h1, h2⟩ := h
  cases c with
  | registerPush call =>
      refine ⟨?_, h2⟩
      intro route l hl
      simp only [routingStep, registerCallOneWay] at hl
      rcases alookup_aset_cases hl with rfl | hold
      · simp
      · exact h1 _ _ hold
  | registerRequest call =>
      simp only [routingStep, registerCallTwoWay]
      cases hlk : alookup call.route s.registrationCallsTwoWay with
      | none =>
          simp only [hlk, Option.getD_none]
          rw [if_neg (by simp), if_neg (by simp)]
          refine ⟨h1, ?_⟩
          intro route its hits
          rcases alookup_aset_cases hits with rfl | hold
          · refine ⟨by simp, by simp, by simp, by simp⟩
          · exact h2 _ _ hold
      | some items0 =>
          obtain ⟨hne, hpol, hsingle, hrid⟩ := h2 _ _ hlk
          have hkept : aset call.route items0 s.registrationCallsTwoWay =
              s.registrationCallsTwoWay := aset_lookup_eq hlk
          simp only [hlk, Option.getD_some]
          by_cases hc1 : items0.policy = RoutingPolicy.Single ∧ items0.calls.length > 0
          · rw [if_pos hc1]
            exact routingInv_of_eq ⟨h1, h2⟩ rfl (by simp [hkept])
          · rw [if_neg hc1]
            by_cases hc2 : items0.policy ≠ RoutingPolicy.Single ∧
                items0.policy ≠ call.routingPolicy
            · rw [if_pos hc2]
              exact routingInv_of_eq ⟨h1, h2⟩ rfl (by simp [hkept])
            · rw [if_neg hc2]
              have hns : items0.policy ≠ RoutingPolicy.Single := by
                intro hsg
                exact hc1 ⟨hsg, by
                  have := hsingle hsg
                  cases hcalls : items0.calls with
                  | nil => exact absurd hcalls hne
                  | cons a as => simp [hcalls]⟩
              have hpc : items0.policy = call.routingPolicy := by
                by_contra hne2
                exact hc2 ⟨hns, hne2⟩
              refine ⟨h1, ?_⟩
              intro route its hits
              rcases alookup_aset_cases hits with rfl | hold
              · refine ⟨by simp, ?_, ?_, hrid⟩
                · intro cc hcc
                  simp only [List.mem_append, List.mem_singleton] at hcc
                  rcases hcc with hcc | rfl
                  · exact hpol cc hcc
                  · exact hpc.symm
                · intro hsg
                  exact absurd hsg hns
              · exact h2 _ _ hold
  | pushEvent route =>
      exact ⟨h1, h2⟩
  | requestEvent requesterId route rand =>
      simp only [routingStep, handleRequest]
      cases hlk : alookup route s.registrationCallsTwoWay with
      | none => exact ⟨h1, h2⟩
      | some items =>
          obtain ⟨hne, hpol, hsingle, _⟩ := h2 _ _ hlk
          refine ⟨h1, ?_⟩
          intro r its hits
          simp only [addRequestCall] at hits
          rcases alookup_aset_cases hits with rfl | hold
          · exact ⟨hne, hpol, hsingle, nextRequestId_le _⟩
          · exact h2 _ _ hold
  | respondEvent cancelledReq resp =>
      refine routingInv_of_eq ⟨h1, h2⟩ ?_ ?_
      · rw [routingStep, handleResponse_fst]
        exact (removeRequestCall_regs s resp.route resp.requestId).1
      · rw [routingStep, handleResponse_fst]
        exact (removeRequestCall_regs s resp.route resp.requestId).2
  | deregisterPush call =>
      simp only [routingStep, deregisterCallOneWay]
      split
      · split
        · refine ⟨?_, h2⟩
          intro route l hl
          exact h1 _ _ (alookup_adelete_cases hl)
        · next hne2 =>
          refine ⟨?_, h2⟩
          intro route l hl
          rcases alookup_aset_cases hl with rfl | hold
          · simpa [List.isEmpty_iff] using hne2
          · exact h1 _ _ hold
      · exact ⟨h1, h2⟩
  | deregisterRequest cancelledReq call =>
      simp only [routingStep, deregisterCallTwoWay]
      cases hlk : alookup call.route s.registrationCallsTwoWay with
      | none => exact ⟨h1, h2⟩
      | some items =>
          obtain ⟨hne, hpol, hsingle, hrid⟩ := h2 _ _ hlk
          simp only [hlk]
          split
          · have hproj := cancelRequestCalls_regs
            split
            · next hemp =>
              refine routingInv_of_eq ⟨?_, ?_⟩ (hproj _ _ _).1 (hproj _ _ _).2
              · exact h1
              · intro route its hits
                exact h2 _ _ (alookup_adelete_cases hits)
            · next hne2 =>
              refine routingInv_of_eq ⟨?_, ?_⟩ (hproj _ _ _).1 (hproj _ _ _).2
              · exact h1
              · intro route its hits
                rcases alookup_aset_cases hits with rfl | hold
                · refine ⟨by simpa [List.isEmpty_iff] using hne2, ?_, ?_, hrid⟩
                  · intro cc hcc
                    exact hpol cc (mem_eraseFirstTwoWay hcc)
                  · intro hsg
                    have := hsingle hsg
                    have := length_eraseFirstTwoWay_le call.callId items.calls
                    simp only
                    omega
                · exact h2 _ _ hold
          · exact ⟨h1, h2⟩

theorem routingInv_initial : RoutingInv RoutingState.initial := by
  constructor
  · intro route l hl
    simp [RoutingState.initial, alookup] at hl
  · intro route items hits
    simp [RoutingState.initial, alookup] at hits

theorem routingInv_run (cmds : List RoutingCmd) : RoutingInv (routingRun cmds) := by
  have hstep : ∀ t : List RoutingCmd, ∀ s : RoutingState, RoutingInv s →
      RoutingInv (t.foldl routingStep s) := by
    intro t
    induction t with
    | nil => exact fun s hs => hs
    | cons c cs ih => exact fun s hs => ih _ (routingInv_step c hs)
  exact hstep cmds _ routingInv_initial

theorem alookup_some_mem {α β : Type} [DecidableEq α] {k : α} {v : β} {l : List (α × β)}
    (h : alookup k l = some v) : (k, v) ∈ l := by
  induction l with
  | nil => simp [alookup] at h
  | cons hd tl ih =>
    obtain ⟨k', v'⟩ := hd
    by_cases hk : k' = k
    · subst hk
      simp only [alookup, if_pos rfl] at h
      simp [Option.some.inj h]
    · simp only [alookup, if_neg hk] at h
      exact List.mem_cons_of_mem _ (ih h)

theorem alookup_none_iff_keys {α β : Type} [DecidableEq α] {k : α} {l : List (α × β)} :
    alookup k l = none ↔ k ∉ l.map Prod.fst := by
  induction l with
  | nil => simp [alookup]
  | cons hd tl ih =>
    obtain ⟨k', v'⟩ := hd
    by_cases hk : k' = k
    · subst hk
      simp [alookup]
    · simp [alookup, hk, ih, Ne.symm hk]

theorem keys_filter_subset {α β : Type} {x : α} {l : List (α × β)} {p : α × β → Bool}
    (h : x ∈ (l.filter p).map Prod.fst) : x ∈ l.map Prod.fst := by
  rcases List.mem_map.mp h with ⟨pr, hpr, rfl⟩
  exact List.mem_map_of_mem _ (List.mem_of_mem_filter hpr)

theorem alookup_filter_none {α β : Type} [DecidableEq α] {k : α} {v : β} {l : List (α × β)}
    {p : α × β → Bool} (hnd : (l.map Prod.fst).Nodup) (h : alookup k l = some v)
    (hp : p (k, v) = false) : alookup k (l.filter p) = none := by
  induction l with
  | nil => simp [alookup] at h
  | cons hd tl ih =>
    obtain ⟨k', v'⟩ := hd
    simp only [List.map_cons, List.nodup_cons] at hnd
    by_cases hk : k' = k
    · subst hk
      simp only [alookup, if_pos rfl] at h
      obtain rfl : v' = v := Option.some.inj h
      rw [List.filter_cons, hp]
      exact alookup_none_iff_keys.mpr (fun hmem => hnd.1 (keys_filter_subset hmem))
    · simp only [alookup, if_neg hk] at h
      rw [List.filter_cons]
      by_cases hpk : p (k', v')
      · simp only [hpk, if_true, alookup, if_neg hk]
        exact ih hnd.2 h
      · simp only [hpk, if_false]
        exact ih hnd.2 h

theorem mem_keys_aset {α β : Type} [DecidableEq α] {x k : α} {v : β} {l : List (α × β)}
    (h : x ∈ (aset k v l).map Prod.fst) : x = k ∨ x ∈ l.map Prod.fst := by
  induction l with
  | nil => simpa [aset] using h
  | cons hd tl ih =>
    obtain ⟨k', v'⟩ := hd
    by_cases hk : k' = k
    · subst hk
      simpa [aset] using h
    · simp only [aset, if_neg hk, List.map_cons, List.mem_cons] at h ⊢
      rcases h with h | h
      · exact Or.inr (Or.inl h)
      · rcases ih h with h | h
        · exact Or.inl h
        · exact Or.inr (Or.inr h)

theorem nodup_keys_aset {α β : Type} [DecidableEq α] {k : α} {v : β} {l : List (α × β)}
    (h : (l.map Prod.fst).Nodup) : ((aset k v l).map Prod.fst).Nodup := by
  induction l with
  | nil => simp [aset]
  | cons hd tl ih =>
    obtain ⟨k', v'⟩ := hd
    simp only [List.map_cons, List.nodup_cons] at h
    by_cases hk : k' = k
    · subst hk
      simpa [aset] using h
    · simp only [aset, if_neg hk, List.map_cons, List.nodup_cons]
      refine ⟨?_, ih h.2⟩
      intro hmem
      rcases mem_keys_aset hmem with rfl | hmem
      · exact hk rfl
      · exact h.1 hmem

theorem nodup_keys_filter {α β : Type} {l : List (α × β)} (p : α × β → Bool)
    (h : (l.map Prod.fst).Nodup) : (((l.filter p).map Prod.fst)).Nodup :=
  ((List.filter_sublist (p := p) l).map Prod.fst).nodup h

theorem pendingNodup_of_eq {s t : RoutingState} (h : PendingNodup s)
    (e : t.requestCalls = s.requestCalls) : PendingNodup t :=
  fun r p hp => h r p (e ▸ hp)

theorem cancelRequestCalls_pendingNodup {s : RoutingState} {cancelledReq : List Nat}
    {call : RegCallTwoWay} (h : PendingNodup s) :
    PendingNodup (cancelRequestCalls s cancelledReq call).1 := by
  simp only [cancelRequestCalls]
  split
  · exact h
  · next pitems hitems =>
      split
      · intro r p hp
        exact h _ _ (alookup_adelete_cases hp)
      · intro r p hp
        rcases alookup_aset_cases hp with rfl | hold
        · exact nodup_keys_filter _ (h _ _ hitems)
        · exact h _ _ hold

theorem pendingNodup_step {s : RoutingState} (c : RoutingCmd) (h : PendingNodup s) :
    PendingNodup (routingStep s c) := by
  cases c with
  | registerPush call => exact pendingNodup_of_eq h rfl
  | registerRequest call =>
      simp only [routingStep, registerCallTwoWay]
      split
      · exact pendingNodup_of_eq h rfl
      · split
        · exact pendingNodup_of_eq h rfl
        · exact pendingNodup_of_eq h rfl
  | pushEvent route => exact h
  | requestEvent requesterId route rand =>
      simp only [routingStep, handleRequest]
      split
      · exact h
      · next items hitems =>
          intro r pitems hp
          simp only [addRequestCall] at hp
          rcases alookup_aset_cases hp with rfl | hold
          · refine nodup_keys_aset ?_
            cases hold2 : alookup route s.requestCalls with
            | none => simp [hold2]
            | some prev => simpa [hold2] using h _ _ hold2
          · exact h _ _ hold
  | respondEvent cancelledReq resp =>
      rw [routingStep, handleResponse_fst]
      simp only [removeRequestCall]
      split
      · exact h
      · next pitems hitems =>
          split
          · intro r p hp
            exact h _ _ (alookup_adelete_cases hp)
          · intro r p hp
            rcases alookup_aset_cases hp with rfl | hold
            · cases hrid : resp.requestId with
              | none => exact h _ _ hitems
              | some rid => exact nodup_keys_filter _ (h _ _ hitems)
            · exact h _ _ hold
  | deregisterPush call =>
      simp only [routingStep, deregisterCallOneWay]
      split
      · split
        · exact pendingNodup_of_eq h rfl
        · exact pendingNodup_of_eq h rfl
      · exact h
  | deregisterRequest cancelledReq call =>
      simp only [routingStep, deregisterCallTwoWay]
      split
      · exact h
      · next items hitems =>
          split
          · apply cancelRequestCalls_pendingNodup
            split
            · exact pendingNodup_of_eq h rfl
            · exact pendingNodup_of_eq h rfl
          · exact h

theorem pendingNodup_initial : PendingNodup RoutingState.initial := by
  intro route pitems hp
  simp [RoutingState.initial, alookup] at hp

theorem pendingNodup_run (cmds : List RoutingCmd) : PendingNodup (routingRun cmds) := by
  have hstep : ∀ t : List RoutingCmd, ∀ s : RoutingState, PendingNodup s →
      PendingNodup (t.foldl routingStep s) := by
    intro t
    induction t with
    | nil => exact fun s hs => hs
    | cons c cs ih => exact fun s hs => ih _ (pendingNodup_step c hs)
  exact hstep cmds _ pendingNodup_initial

theorem removeRequestCall_item (s : RoutingState) (route : String) (rid : Nat) :
    (removeRequestCall s route (some rid)).2 = lookupPending s route rid := by
  unfold removeRequestCall lookupPending
  cases hlk : alookup route s.requestCalls with
  | none => simp [hlk]
  | some pitems => simp [hlk]

theorem lookupPending_remove_self (s : RoutingState) (route : String) (rid : Nat) :
    lookupPending (removeRequestCall s route (some rid)).1 route rid = none := by
  unfold removeRequestCall lookupPending
  cases hlk : alookup route s.requestCalls with
  | none => simp [hlk]
  | some pitems =>
      by_cases he : (adelete rid pitems).isEmpty
      · simp [hlk, he, alookup_adelete_self]
      · simp [hlk, he, alookup_aset_self, alookup_adelete_self]

theorem handleResponse_not_found {s : RoutingState} {cancelledReq : List Nat}
    {resp : ResponseEvent} {rid : Nat} (h1 : resp.requestId = some rid)
    (h2 : lookupPending s resp.route rid = none) :
    (handleResponse s cancelledReq resp).2 = .invalidArgumentReply noCorrelationErr := by
  have hnone : (removeRequestCall s resp.route resp.requestId).2 = none := by
    rw [h1, removeRequestCall_item, h2]
  simp [handleResponse, hnone, noCorrelationErr]

theorem handleResponse_none_rid {s : RoutingState} {cancelledReq : List Nat}
    {resp : ResponseEvent} (h1 : resp.requestId = none) :
    (handleResponse s cancelledReq resp).2 = .invalidArgumentReply noCorrelationErr := by
  have hnone : (removeRequestCall s resp.route resp.requestId).2 = none := by
    rw [h1]
    unfold removeRequestCall
    cases hlk : alookup resp.route s.requestCalls with
    | none => simp [hlk]
    | some pitems => simp [hlk]
  simp [handleResponse, hnone, noCorrelationErr]

theorem handleResponse_found {s : RoutingState} (cancelledReq : List Nat)
    {resp : ResponseEvent} {rid : Nat} {item : RequestItem} (h1 : resp.requestId = some rid)
    (h2 : lookupPending s resp.route rid = some item) :
    (handleResponse s cancelledReq resp).1 = (removeRequestCall s resp.route (some rid)).1 ∧
    (handleResponse s cancelledReq resp).2 =
      (if item.requesterId ∈ cancelledReq then .ackReply 0 none
       else .ackReply 1 (some (item.requesterId, { resp with requestId := none }))) := by
  have hsome : (removeRequestCall s resp.route resp.requestId).2 = some item := by
    rw [h1, removeRequestCall_item, h2]
  constructor
  · rw [handleResponse_fst, h1]
  · by_cases hm : item.requesterId ∈ cancelledReq <;>
      simp [handleResponse, hsome, hm]

theorem adelete_idem {α β : Type} [DecidableEq α] (k : α) (l : List (α × β)) :
    adelete k (adelete k l) = adelete k l := by
  induction l with
  | nil => rfl
  | cons hd tl ih =>
      by_cases h : hd.1 = k
      · simpa [adelete, List.filter_cons, h] using ih
      · simpa [adelete, List.filter_cons, h] using ih

theorem alookup_length_one {α β : Type} [DecidableEq α] {k : α} {v : β} {l : List (α × β)}
    (h : alookup k l = some v) (hlen : l.length = 1) : l = [(k, v)] := by
  cases l with
  | nil => simp at hlen
  | cons hd tl =>
      cases tl with
      | nil =>
          obtain ⟨k_, v_⟩ := hd
          by_cases hk : k_ = k
          · subst hk
            simp only [alookup, if_pos rfl] at h
            simp [Option.some.inj h]
          · simp [alookup, hk] at h
      | cons a b => simp at hlen

theorem cancelRequestCalls_spec (s : RoutingState) (cancelledReq : List Nat)
    (call : RegCallTwoWay) (hnd : PendingNodup s) :
    ∀ rid item, lookupPending s call.route rid = some item →
      sameRegistration item.registration call.callId = true →
      lookupPending (cancelRequestCalls s cancelledReq call).1 call.route rid = none ∧
      (item.requesterId ∉ cancelledReq →
        (item.requesterId, deregisteredErr) ∈ (cancelRequestCalls s cancelledReq call).2) := by
  intro rid item hlp hsame
  unfold lookupPending at hlp
  cases hpit : alookup call.route s.requestCalls with
  | none =>
      rw [hpit] at hlp
      cases hlp
  | some pitems =>
      rw [hpit] at hlp
      simp only [Option.some_bind] at hlp
      have hfilter : alookup rid (pitems.filter
          (fun p => !sameRegistration p.2.registration call.callId)) = none := by
        apply alookup_filter_none (hnd _ _ hpit) hlp
        simp [hsame]
      constructor
      · simp only [cancelRequestCalls, hpit]
        split
        · unfold lookupPending
          simp [alookup_adelete_self]
        · unfold lookupPending
          simp [alookup_aset_self, hfilter]
      · intro hnotc
        simp only [cancelRequestCalls, hpit]
        refine List.mem_filterMap.mpr ⟨(rid, item), alookup_some_mem hlp, ?_⟩
        rw [if_pos ⟨hsame, hnotc⟩]
        rfl

/-!
## Claim theorems
-/

/-- C1: For the NEXT routing policy the claim asserts that every dispatch
picks the registration at the per-group cursor, that the cursor advances
modulo the list length, and that it is clamped back into `[0, len)` whenever
a registration is removed, so that the pick index is always below the list
length. The code never re-bounds the closure cursor on removal: after
registering two NEXT registrations on route `r`, serving one request
(cursor advances to 1) and deregistering the second registration (length
drops to 1, cursor stays 1), the next request selects `calls[1]` of a
one-element list — the JS `undefined` — so the pick index equals the list
length instead of staying below it. -/
theorem claim_C1_next_cursor_not_rebounded :
    alookup "r" (routingRun nextPolicyCmds).registrationCallsTwoWay =
      some { calls := [{ callId := 1, route := "r", routingPolicy := .Next }],
             requestId := 1, policy := .Next, cursor := 1 } ∧
    (handleRequest (routingRun nextPolicyCmds) 11 "r" 0).2 = .dispatched 2 none := by
  exact ⟨by decide, by decide⟩

/-- C2: The payload codec round-trips bitwise: converting a well-formed wire
payload (type url plus bytes) to the bus form (base64-encoded `value`,
`type_url` moved to `objectType`) and back yields exactly the original
payload; the body is never decoded or altered. -/
theorem claim_C2_payload_codec_roundtrip (uuid : String) (event : PbChannelEvent)
    (h : ∀ b ∈ event.data.value, b < 256) :
    observeChannelEvent (publishChannel uuid event) = event := by
  obtain ⟨i, ⟨t, bytes⟩, sid⟩ := event
  simp only [publishChannel, observeChannelEvent]
  simp [base64_roundtrip bytes (by simpa using h)]

/-- Witness for C2 at a concrete five-byte payload. -/
theorem claim_C2_payload_codec_roundtrip_witness :
    (∀ b ∈ [0, 1, 77, 128, 255], b < 256) ∧
    observeChannelEvent (publishChannel "uuid-1"
      { id := "channel-1",
        data := { type_url := "type.googleapis.com/T", value := [0, 1, 77, 128, 255] },
        sourceId := some "src-1" }) =
      { id := "channel-1",
        data := { type_url := "type.googleapis.com/T", value := [0, 1, 77, 128, 255] },
        sourceId := some "src-1" } :=
  ⟨by decide, claim_C2_payload_codec_roundtrip "uuid-1" _ (by decide)⟩

/-- C3 counterexample: the claim quotes the InvalidArgument details as
"Response event discarded as no correlated registration exists", but the
code (and its test suite) uses the spelling "... registration exits"; at a
concrete uncorrelated Respond the reply carries the latter string. -/
theorem claim_C3_details_counterexample :
    (handleResponse RoutingState.initial []
      { route := "r", requestId := some 1, data := none, error := none }).2 =
      .invalidArgumentReply noCorrelationErr ∧
    noCorrelationErr.details ≠
      "Response event discarded as no correlated registration exists" := by
  exact ⟨by decide, by decide⟩

/-- C3 (amended: the details string is the code's
"Response event discarded as no correlated registration exits"): a Respond
with no pending request under `(route, requestId)` — including an absent
requestId — replies InvalidArgument with that message; if the pending
requester is already cancelled the response is dropped with a success reply
of `routingCount = 0`; otherwise the requestId is stripped, the event is
delivered as the requester's unary reply with `routingCount = 1`; in both
found cases the PendingRequest is removed. -/
theorem claim_C3_respond_reply (s : RoutingState) (cancelledReq : List Nat)
    (resp : ResponseEvent) :
    (resp.requestId = none →
      (handleResponse s cancelledReq resp).2 = .invalidArgumentReply noCorrelationErr) ∧
    (∀ rid, resp.requestId = some rid → lookupPending s resp.route rid = none →
      (handleResponse s cancelledReq resp).2 = .invalidArgumentReply noCorrelationErr) ∧
    (∀ rid item, resp.requestId = some rid → lookupPending s resp.route rid = some item →
      item.requesterId ∈ cancelledReq →
      (handleResponse s cancelledReq resp).2 = .ackReply 0 none ∧
      lookupPending (handleResponse s cancelledReq resp).1 resp.route rid = none) ∧
    (∀ rid item, resp.requestId = some rid → lookupPending s resp.route rid = some item →
      item.requesterId ∉ cancelledReq →
      (handleResponse s cancelledReq resp).2 =
        .ackReply 1 (some (item.requesterId, { resp with requestId := none })) ∧
      lookupPending (handleResponse s cancelledReq resp).1 resp.route rid = none) := by
  refine ⟨?_, ?_, ?_, ?_⟩
  · intro h1
    exact handleResponse_none_rid h1
  · intro rid h1 h2
    exact handleResponse_not_found h1 h2
  · intro rid item h1 h2 hm
    obtain ⟨hfst, hsnd⟩ := handleResponse_found cancelledReq h1 h2
    refine ⟨by rw [hsnd, if_pos hm], ?_⟩
    rw [hfst]
    exact lookupPending_remove_self s resp.route rid
  · intro rid item h1 h2 hm
    obtain ⟨hfst, hsnd⟩ := handleResponse_found cancelledReq h1 h2
    refine ⟨by rw [hsnd, if_neg hm], ?_⟩
    rw [hfst]
    exact lookupPending_remove_self s resp.route rid

/-- Witness for C3 (amended) on the reachable state with one SINGLE
registration and one pending request. -/
theorem claim_C3_respond_reply_witness :
    (handleResponse
        (routingRun [.registerRequest { callId := 1, route := "r", routingPolicy := .Single },
                     .requestEvent 10 "r" 0]) []
        { route := "r", requestId := some 1, data := some "d", error := none }).2 =
      .ackReply 1
        (some (10, { route := "r", requestId := none, data := some "d", error := none })) ∧
    lookupPending
      (handleResponse
        (routingRun [.registerRequest { callId := 1, route := "r", routingPolicy := .Single },
                     .requestEvent 10 "r" 0]) []
        { route := "r", requestId := some 1, data := some "d", error := none }).1
      "r" 1 = none :=
  (claim_C3_respond_reply _ [] _).2.2.2 1
    { requesterId := 10,
      registration := some { callId := 1, route := "r", routingPolicy := .Single } }
    rfl (by decide) (by decide)

/-- C4: every request route group only holds registrations carrying the
group's policy, a SINGLE group never holds more than one registration, and
`registerRequest` rejects with InvalidArgument any additional registration
on a SINGLE group or one whose policy differs from the group's non-SINGLE
policy; a rejected registration leaves the service state (hence the group's
registration list) unchanged. -/
theorem claim_C4_policy_coherence :
    (∀ cmds route items,
      alookup route (routingRun cmds).registrationCallsTwoWay = some items →
      (∀ c ∈ items.calls, c.routingPolicy = items.policy) ∧
      (items.policy = .Single → items.calls.length ≤ 1)) ∧
    (∀ s call e, (registerCallTwoWay s call).2 = some e →
      e.code = .invalidArgument ∧ (registerCallTwoWay s call).1 = s) := by
  constructor
  · intro cmds route items h
    have hinv := routingInv_run cmds
    exact ⟨(hinv.2 _ _ h).2.1, (hinv.2 _ _ h).2.2.1⟩
  · intro s call e he
    cases hlk : alookup call.route s.registrationCallsTwoWay with
    | none =>
        simp only [registerCallTwoWay, hlk, Option.getD_none] at he
        rw [if_neg (by simp), if_neg (by simp)] at he
        simp at he
    | some items0 =>
        simp only [registerCallTwoWay, hlk, Option.getD_some] at he ⊢
        by_cases hc1 : items0.policy = RoutingPolicy.Single ∧ items0.calls.length > 0
        · rw [if_pos hc1] at he ⊢
          have he2 := Option.some.inj he
          constructor
          · rw [← he2]
          · rw [aset_lookup_eq hlk]
        · rw [if_neg hc1] at he ⊢
          by_cases hc2 : items0.policy ≠ RoutingPolicy.Single ∧
              items0.policy ≠ call.routingPolicy
          · rw [if_pos hc2] at he ⊢
            have he2 := Option.some.inj he
            constructor
            · rw [← he2]
            · rw [aset_lookup_eq hlk]
          · rw [if_neg hc2] at he
            simp at he

/-- Witness for C4: a reachable FIRST group and a rejected second SINGLE
registration. -/
theorem claim_C4_policy_coherence_witness :
    ((∀ c ∈ firstGroupW.calls, c.routingPolicy = firstGroupW.policy) ∧
      (firstGroupW.policy = .Single → firstGroupW.calls.length ≤ 1)) ∧
    (singleRejectErrW.code = .invalidArgument ∧
      (registerCallTwoWay
        (routingRun [.registerRequest { callId := 1, route := "r", routingPolicy := .Single }])
        { callId := 2, route := "r", routingPolicy := .Single }).1 =
      routingRun [.registerRequest { callId := 1, route := "r", routingPolicy := .Single }]) :=
  ⟨claim_C4_policy_coherence.1
      [.registerRequest { callId := 1, route := "r", routingPolicy := .First },
       .registerRequest { callId := 2, route := "r", routingPolicy := .Last }] "r"
      firstGroupW (by decide),
   claim_C4_policy_coherence.2
      (routingRun [.registerRequest { callId := 1, route := "r", routingPolicy := .Single }])
      { callId := 2, route := "r", routingPolicy := .Single } singleRejectErrW (by decide)⟩

/-- C5: deregistering a request registration deletes every PendingRequest of
the route whose chosen registration is the departing call; each such pending
whose requester is still live is failed with
Cancelled("Correlated registration deregistered before response"); and any
subsequent Respond for that `(route, requestId)` replies InvalidArgument.
`hnd` is the no-duplicate-request-id property of JS maps, which holds in
every reachable state (`pendingNodup_run`). -/
theorem claim_C5_deregister_cancels_pending (s : RoutingState) (cancelledReq : List Nat)
    (call : RegCallTwoWay) (items : TwoWayItems)
    (hnd : PendingNodup s)
    (hreg : alookup call.route s.registrationCallsTwoWay = some items)
    (hmem : items.calls.any (fun c => c.callId == call.callId) = true) :
    ∀ rid item, lookupPending s call.route rid = some item →
      sameRegistration item.registration call.callId = true →
      lookupPending (deregisterCallTwoWay s cancelledReq call).1 call.route rid = none ∧
      (item.requesterId ∉ cancelledReq →
        (item.requesterId, deregisteredErr) ∈ (deregisterCallTwoWay s cancelledReq call).2) ∧
      (∀ cancelledReq2 resp, resp.route = call.route → resp.requestId = some rid →
        (handleResponse (deregisterCallTwoWay s cancelledReq call).1 cancelledReq2 resp).2 =
          .invalidArgumentReply noCorrelationErr) := by
  intro rid item hlp hsame
  have main : ∀ s1 : RoutingState, s1.requestCalls = s.requestCalls →
      lookupPending (cancelRequestCalls s1 cancelledReq call).1 call.route rid = none ∧
      (item.requesterId ∉ cancelledReq →
        (item.requesterId, deregisteredErr) ∈ (cancelRequestCalls s1 cancelledReq call).2) := by
    intro s1 heq
    have hnd1 : PendingNodup s1 := pendingNodup_of_eq hnd heq
    have hlp1 : lookupPending s1 call.route rid = some item := by
      unfold lookupPending
      rw [heq]
      exact hlp
    exact cancelRequestCalls_spec s1 cancelledReq call hnd1 rid item hlp1 hsame
  simp only [deregisterCallTwoWay, hreg, if_pos hmem]
  split
  · refine ⟨(main _ (by rfl)).1, (main _ (by rfl)).2, ?_⟩
    intro cancelledReq2 resp hr hrid
    apply handleResponse_not_found hrid
    rw [hr]
    exact (main _ (by rfl)).1
  · refine ⟨(main _ (by rfl)).1, (main _ (by rfl)).2, ?_⟩
    intro cancelledReq2 resp hr hrid
    apply handleResponse_not_found hrid
    rw [hr]
    exact (main _ (by rfl)).1

/-- Witness for C5: one SINGLE registration with one pending request, then
the registration deregisters. -/
theorem claim_C5_deregister_cancels_pending_witness :
    lookupPending (deregisterCallTwoWay
        (routingRun [.registerRequest { callId := 1, route := "r", routingPolicy := .Single },
                     .requestEvent 10 "r" 0]) []
        { callId := 1, route := "r", routingPolicy := .Single }).1 "r" 1 = none ∧
    ((10 : Nat) ∉ ([] : List Nat) →
      ((10 : Nat), deregisteredErr) ∈ (deregisterCallTwoWay
        (routingRun [.registerRequest { callId := 1, route := "r", routingPolicy := .Single },
                     .requestEvent 10 "r" 0]) []
        { callId := 1, route := "r", routingPolicy := .Single }).2) ∧
    (∀ cancelledReq2 resp, resp.route = "r" → resp.requestId = some 1 →
      (handleResponse (deregisterCallTwoWay
        (routingRun [.registerRequest { callId := 1, route := "r", routingPolicy := .Single },
                     .requestEvent 10 "r" 0]) []
        { callId := 1, route := "r", routingPolicy := .Single }).1 cancelledReq2 resp).2 =
          .invalidArgumentReply noCorrelationErr) :=
  claim_C5_deregister_cancels_pending
    (routingRun [.registerRequest { callId := 1, route := "r", routingPolicy := .Single },
                 .requestEvent 10 "r" 0]) []
    { callId := 1, route := "r", routingPolicy := .Single }
    { calls := [{ callId := 1, route := "r", routingPolicy := .Single }],
      requestId := 1, policy := .Single, cursor := 0 }
    (pendingNodup_run [.registerRequest { callId := 1, route := "r", routingPolicy := .Single },
                       .requestEvent 10 "r" 0])
    (by decide) (by decide) 1
    { requesterId := 10,
      registration := some { callId := 1, route := "r", routingPolicy := .Single } }
    (by decide) (by decide)

/-- C6: in every reachable state, a push-table entry holds a nonempty
registration list and a request-table entry a nonempty group; registration
creates (or extends) the route's entry, and deregistration of a registered
call deletes the entry exactly when the remaining list is empty. -/
theorem claim_C6_table_presence :
    (∀ cmds route,
      (∀ l, alookup route (routingRun cmds).registrationCallsOneWay = some l → l ≠ []) ∧
      (∀ items, alookup route (routingRun cmds).registrationCallsTwoWay = some items →
        items.calls ≠ [])) ∧
    (∀ s call, alookup call.route (registerCallOneWay s call).registrationCallsOneWay =
      some ((alookup call.route s.registrationCallsOneWay).getD [] ++ [call])) ∧
    (∀ s call items, alookup call.route s.registrationCallsOneWay = some items →
      items.any (fun c => c.callId == call.callId) = true →
      alookup call.route (deregisterCallOneWay s call).registrationCallsOneWay =
        (if (eraseFirstOneWay call.callId items).isEmpty then none
         else some (eraseFirstOneWay call.callId items))) := by
  refine ⟨?_, ?_, ?_⟩
  · intro cmds route
    have hinv := routingInv_run cmds
    exact ⟨fun l hl => hinv.1 _ _ hl, fun items hi => (hinv.2 _ _ hi).1⟩
  · intro s call
    simp only [registerCallOneWay]
    exact alookup_aset_self _ _ _
  · intro s call items hlk hmem
    simp only [deregisterCallOneWay, hlk, Option.getD_some, if_pos hmem]
    split
    · exact alookup_adelete_self _ _
    · exact alookup_aset_self _ _ _

/-- Witness for C6 on a two-registration route where one call leaves. -/
theorem claim_C6_table_presence_witness :
    (∀ l, alookup "p" (routingRun [.registerPush { callId := 1, route := "p" }]
        ).registrationCallsOneWay = some l → l ≠ []) ∧
    alookup "p" (registerCallOneWay RoutingState.initial
        { callId := 1, route := "p" }).registrationCallsOneWay =
      some ((alookup "p" RoutingState.initial.registrationCallsOneWay).getD [] ++
        [{ callId := 1, route := "p" }]) ∧
    alookup "p" (deregisterCallOneWay
        (routingRun [.registerPush { callId := 1, route := "p" }])
        { callId := 1, route := "p" }).registrationCallsOneWay =
      (if (eraseFirstOneWay 1 [{ callId := 1, route := "p" }]).isEmpty then none
       else some (eraseFirstOneWay 1 [{ callId := 1, route := "p" }])) :=
  ⟨((claim_C6_table_presence.1 [.registerPush { callId := 1, route := "p" }] "p").1),
   claim_C6_table_presence.2.1 RoutingState.initial { callId := 1, route := "p" },
   claim_C6_table_presence.2.2 _ { callId := 1, route := "p" } _ (by decide) (by decide)⟩

/-- C7: request ids are allocated per group by `nextRequestId` as
counter + 1, wrapping from the 32-bit maximum to 1, so ids are never 0,
always lie in `[1, 2^32 - 1]` (the stored counter stays within 32 bits in
every reachable state), and a dispatched request carries exactly the
successor of the group's previous counter. -/
theorem claim_C7_request_id_allocation :
    (∀ rid, rid < 0xFFFFFFFF → nextRequestId rid = rid + 1) ∧
    nextRequestId 0xFFFFFFFF = 1 ∧
    (∀ rid, nextRequestId rid ≠ 0) ∧
    (∀ rid, rid ≤ 0xFFFFFFFF → 1 ≤ nextRequestId rid ∧ nextRequestId rid ≤ 0xFFFFFFFF) ∧
    (∀ cmds route items, alookup route (routingRun cmds).registrationCallsTwoWay =
        some items → items.requestId ≤ 0xFFFFFFFF) ∧
    (∀ s requesterId route rand items rid target,
      alookup route s.registrationCallsTwoWay = some items →
      (handleRequest s requesterId route rand).2 = .dispatched rid target →
      rid = nextRequestId items.requestId) := by
  refine ⟨?_, ?_, ?_, ?_, ?_, ?_⟩
  · intro rid h
    simp [nextRequestId, h]
  · rfl
  · intro rid
    unfold nextRequestId
    split <;> omega
  · intro rid h
    unfold nextRequestId
    split <;> omega
  · intro cmds route items h
    exact ((routingInv_run cmds).2 _ _ h).2.2.2
  · intro s requesterId route rand items rid target h hdisp
    simp only [handleRequest, h, RequestOutcome.dispatched.injEq] at hdisp
    exact hdisp.1.symm

/-- Witness for C7 at counter values 5 and the 32-bit maximum, and on a
reachable one-registration group. -/
theorem claim_C7_request_id_allocation_witness :
    nextRequestId 5 = 5 + 1 ∧
    (1 ≤ nextRequestId 0xFFFFFFFF ∧ nextRequestId 0xFFFFFFFF ≤ 0xFFFFFFFF) ∧
    ({ calls := [{ callId := 1, route := "q", routingPolicy := .First }],
       requestId := 0, policy := .First, cursor := 0 } : TwoWayItems).requestId ≤
      0xFFFFFFFF ∧
    (2 : Nat) = nextRequestId
      ({ calls := [{ callId := 1, route := "q", routingPolicy := .First }],
         requestId := 1, policy := .First, cursor := 0 } : TwoWayItems).requestId :=
  ⟨claim_C7_request_id_allocation.1 5 (by decide),
   claim_C7_request_id_allocation.2.2.2.1 0xFFFFFFFF (by decide),
   claim_C7_request_id_allocation.2.2.2.2.1
     [.registerRequest { callId := 1, route := "q", routingPolicy := .First }] "q" _
     (by decide),
   claim_C7_request_id_allocation.2.2.2.2.2
     (routingRun [.registerRequest { callId := 1, route := "q", routingPolicy := .First },
                  .requestEvent 10 "q" 0]) 11 "q" 0 _ 2
     (some { callId := 1, route := "q", routingPolicy := .First })
     (by decide) (by decide)⟩

/-- C8: on a created node, a Put proposal with an unset value commits the
null value of `google.protobuf.Value` (the state stores `nullValue: 0`);
and — for values shaped like gRPC-decoded `google.protobuf.Value` objects,
which carry at most one field — the proposal is rejected with the Internal
status exactly when the value does not have exactly one field set. -/
theorem claim_C8_propose_value_handling (nodes : List (String × KVState)) (input : RaftInput)
    (st : KVState) (hnode : alookup input.ref nodes = some st) (hput : input.op = .Put) :
    (input.value = none →
      (propose nodes input).2 = .committed (aset input.key (some nullValueObj) st) ∧
      (propose nodes input).1 = aset input.ref (aset input.key (some nullValueObj) st) nodes) ∧
    (∀ fields, input.value = some (.obj fields) → fields.length ≤ 1 →
      ((propose nodes input).2 = .raftErr .internalErr ↔ fields.length ≠ 1)) ∧
    ((propose nodes input).2 = .raftErr .internalErr →
      (proposeRpc false nodes input).2 =
        .err { code := .internal,
               details := "Serialization format of input value may be invalid" }) := by
  refine ⟨?_, ?_, ?_⟩
  · intro hv
    simp [propose, hnode, hv, hasNoEnumerableKeys, nullValueObj, processInput, hput]
  · intro fields hv hle
    cases fields with
    | nil =>
        simp [propose, hnode, hv, hasNoEnumerableKeys]
    | cons f fs =>
        cases fs with
        | nil =>
            simp [propose, hnode, hv, hasNoEnumerableKeys]
        | cons f2 fs2 => simp at hle
  · intro herr
    cases hres : propose nodes input with
    | mk nodes2 r =>
        rw [hres] at herr
        simp only at herr
        subst herr
        simp [proposeRpc, hres]

/-- Witness for C8: an unset value commits the null value; an empty object
is rejected Internal; a singleton `numberValue` object is not. -/
theorem claim_C8_propose_value_handling_witness :
    ((propose [("n1", [])] { ref := "n1", op := .Put, key := "foo", value := none }).2 =
      .committed (aset "foo" (some nullValueObj) []) ∧
     (propose [("n1", [])] { ref := "n1", op := .Put, key := "foo", value := none }).1 =
      aset "n1" (aset "foo" (some nullValueObj) []) [("n1", [])]) ∧
    ((propose [("n1", [])]
        { ref := "n1", op := .Put, key := "foo", value := some (.obj []) }).2 =
      .raftErr .internalErr ↔ ([] : List (String × JsonValue)).length ≠ 1) ∧
    ((propose [("n1", [])]
        { ref := "n1", op := .Put, key := "foo",
          value := some (.obj [("numberValue", .num 42)]) }).2 =
      .raftErr .internalErr ↔
        [(("numberValue" : String), JsonValue.num 42)].length ≠ 1) :=
  ⟨(claim_C8_propose_value_handling [("n1", [])]
      { ref := "n1", op := .Put, key := "foo", value := none } [] rfl rfl).1 rfl,
   (claim_C8_propose_value_handling [("n1", [])]
      { ref := "n1", op := .Put, key := "foo", value := some (.obj []) } [] rfl rfl).2.1
      [] rfl (by decide),
   (claim_C8_propose_value_handling [("n1", [])]
      { ref := "n1", op := .Put, key := "foo",
        value := some (.obj [("numberValue", .num 42)]) } [] rfl rfl).2.1
      [("numberValue", .num 42)] rfl (by decide)⟩

/-- C9: `PublishComplete` removes the response-sink entry of the given
correlation id if present (leaving other entries untouched), always replies
EventAck, and repeating the call is a no-op: the second call returns
EventAck again and leaves the sink table exactly as the first call left
it. -/
theorem claim_C9_publishComplete_idempotent (sinks : SinkTable) (correlationId : String) :
    (publishComplete sinks correlationId).2 = .eventAck ∧
    alookup correlationId (publishComplete sinks correlationId).1 = none ∧
    (∀ c, c ≠ correlationId →
      alookup c (publishComplete sinks correlationId).1 = alookup c sinks) ∧
    publishComplete (publishComplete sinks correlationId).1 correlationId =
      ((publishComplete sinks correlationId).1, .eventAck) := by
  refine ⟨rfl, alookup_adelete_self _ _, fun c hc => alookup_adelete_ne _ hc, ?_⟩
  simp only [publishComplete]
  rw [adelete_idem]

/-- Witness for C9 on a two-entry sink table. -/
theorem claim_C9_publishComplete_idempotent_witness :
    (publishComplete [("a", 1), ("b", 2)] "a").2 = .eventAck ∧
    alookup "a" (publishComplete [("a", 1), ("b", 2)] "a").1 = none ∧
    alookup "b" (publishComplete [("a", 1), ("b", 2)] "a").1 =
      alookup "b" [("a", 1), ("b", 2)] ∧
    publishComplete (publishComplete [("a", 1), ("b", 2)] "a").1 "a" =
      ((publishComplete [("a", 1), ("b", 2)] "a").1, .eventAck) :=
  ⟨(claim_C9_publishComplete_idempotent [("a", 1), ("b", 2)] "a").1,
   (claim_C9_publishComplete_idempotent [("a", 1), ("b", 2)] "a").2.1,
   (claim_C9_publishComplete_idempotent [("a", 1), ("b", 2)] "a").2.2.1 "b" (by decide),
   (claim_C9_publishComplete_idempotent [("a", 1), ("b", 2)] "a").2.2.2⟩

/-- C10: every Respond that finds a pending request under
`(route, requestId)` consumes it — also when the requester is already
cancelled and the reply is the success ack with `routingCount = 0` — so a
second Respond with the same pair replies InvalidArgument, and consuming the
last pending entry of a route removes the route's entry from the
pending-request table. -/
theorem claim_C10_respond_consumes_pending (s : RoutingState) (cancelledReq : List Nat)
    (resp : ResponseEvent) (rid : Nat) (item : RequestItem)
    (h1 : resp.requestId = some rid)
    (h2 : lookupPending s resp.route rid = some item) :
    lookupPending (handleResponse s cancelledReq resp).1 resp.route rid = none ∧
    (item.requesterId ∈ cancelledReq →
      (handleResponse s cancelledReq resp).2 = .ackReply 0 none) ∧
    (∀ cancelledReq2,
      (handleResponse (handleResponse s cancelledReq resp).1 cancelledReq2 resp).2 =
        .invalidArgumentReply noCorrelationErr) ∧
    (∀ pitems, alookup resp.route s.requestCalls = some pitems → pitems.length = 1 →
      alookup resp.route ((handleResponse s cancelledReq resp).1).requestCalls = none) := by
  obtain ⟨hfst, hsnd⟩ := handleResponse_found cancelledReq h1 h2
  have hafter : lookupPending (handleResponse s cancelledReq resp).1 resp.route rid = none := by
    rw [hfst]
    exact lookupPending_remove_self s resp.route rid
  refine ⟨hafter, ?_, ?_, ?_⟩
  · intro hm
    rw [hsnd, if_pos hm]
  · intro cancelledReq2
    exact handleResponse_not_found h1 hafter
  · intro pitems hpit hlen
    have hitem : alookup rid pitems = some item := by
      unfold lookupPending at h2
      rw [hpit] at h2
      simpa using h2
    have hsingle : pitems = [(rid, item)] := alookup_length_one hitem hlen
    subst hsingle
    have hinner : adelete rid [(rid, item)] = [] := by simp [adelete]
    rw [hfst]
    simp [removeRequestCall, hpit, hinner, alookup_adelete_self]

/-- Witness for C10 on a reachable state with a cancelled requester. -/
theorem claim_C10_respond_consumes_pending_witness :
    lookupPending (handleResponse
        (routingRun [.registerRequest { callId := 1, route := "r", routingPolicy := .Single },
                     .requestEvent 10 "r" 0]) [10]
        { route := "r", requestId := some 1, data := none, error := none }).1 "r" 1 = none ∧
    ((10 : Nat) ∈ [10] →
      (handleResponse
        (routingRun [.registerRequest { callId := 1, route := "r", routingPolicy := .Single },
                     .requestEvent 10 "r" 0]) [10]
        { route := "r", requestId := some 1, data := none, error := none }).2 =
        .ackReply 0 none) :=
  ⟨(claim_C10_respond_consumes_pending _ [10] _ 1
      { requesterId := 10,
        registration := some { callId := 1, route := "r", routingPolicy := .Single } }
      rfl (by decide)).1,
   (claim_C10_respond_consumes_pending _ [10] _ 1
      { requesterId := 10,
        registration := some { callId := 1, route := "r", routingPolicy := .Single } }
      rfl (by decide)).2.1⟩

end TNC

